import Mathlib

/-!
Verification of the Monkey-language tree-walking evaluator
(`src/evaluator/mod.rs`) against its specification.

The evaluator is embedded shallowly:

* The AST node types (`Expression`, `Statement`) are modelled from the
  spec's §6 interface description, since `parser/ast.rs` is not part of
  the evaluated sources.
* The runtime `Object` type, `HashKey`, `get_type_str` and
  `get_hash_key` are modelled from the spec's §3/§4.1 (`object.rs` is
  not part of the evaluated sources); the `Environment` operations
  `get`/`set`/`new_enclosed` are modelled from spec §4.2
  (`environment.rs` is not part of the evaluated sources).
* Rust's `Rc<RefCell<Environment>>` heap is modelled as an explicit
  store (arena) of environment frames threaded through evaluation;
  an environment reference is an index into the store.
* Rust `i32` arithmetic is modelled with `Int` plus explicit range
  checks; an out-of-range result, division by zero, `usize`
  subtraction underflow and out-of-bounds slice indexing become an
  explicit `panic` outcome, mirroring the host's checked (debug-build)
  semantics.
* The evaluator's `Result<Object, EvalError>` propagation channel is
  the `err` outcome; `timeout` is a model artifact of the fuel
  parameter that makes the recursive interpreter total.
-/

namespace MonkeyEval

/-! ## AST (modelled from the spec: `parser/ast.rs` is outside the evaluated sources) -/

mutual

/-- Modelled from the spec: expression AST nodes consumed by the evaluator
(§6: Identifier/Integer/Boolean/String/Prefix/Infix/If/FunctionLiteral/
ArrayLiteral/HashLiteral/Call/Index). Operators are carried as their
literal strings, matching `expr.operator.get_literal()` in the source. -/
inductive Expression where
  | identifier (name : String)
  | integer (value : Int)
  | boolean (value : Bool)
  | string (value : String)
  | prefixE (operator : String) (operand : Expression)
  | infixE (operator : String) (lhs : Expression) (rhs : Expression)
  | ifE (condition : Expression) (consequence : List Statement)
        (alternative : Option (List Statement))
  | fnLiteral (parameters : List String) (body : List Statement)
  | arrayLiteral (elements : List Expression)
  | hashLiteral (pairs : List (Expression × Expression))
  | call (function : Expression) (arguments : List Expression)
  | indexE (target : Expression) (index : Expression)

/-- Modelled from the spec: statement AST nodes (Let/Return/Expression). -/
inductive Statement where
  | letS (name : String) (value : Expression)
  | returnS (value : Expression)
  | exprS (expr : Expression)

end

/-! ## Runtime objects (modelled from the spec: `object.rs` is outside the evaluated sources) -/

/-- Modelled from the spec: a derived, comparable key computed only from
`Integer`, `Boolean`, or `String` values (§3 HashKey). -/
inductive HashKey where
  | integer (i : Int)
  | boolean (b : Bool)
  | string (s : String)
deriving DecidableEq

/-- Modelled from the spec: the tagged-union runtime value (§3).
A `function`'s captured environment is an index into the store;
a `builtin` is identified by its registry name; a `hash` carries, in
key order, the derived key, the original key object and the value
(mirroring `BTreeMap<HashKey, HashPair>`). -/
inductive Object where
  | integer (value : Int)
  | boolean (value : Bool)
  | string (value : String)
  | null
  | returnValue (value : Object)
  | error (message : String)
  | function (parameters : List String) (body : List Statement) (env : Nat)
  | builtin (name : String)
  | array (elements : List Object)
  | hash (pairs : List (HashKey × Object × Object))


/-- Modelled from the spec: the diagnostic type-name query (§4.1). -/
def Object.get_type_str : Object → String
  | .integer _ => "INTEGER"
  | .boolean _ => "BOOLEAN"
  | .string _ => "STRING"
  | .null => "NULL"
  | .returnValue _ => "RETURN_VALUE"
  | .error _ => "ERROR"
  | .function _ _ _ => "FUNCTION"
  | .builtin _ => "BUILTIN"
  | .array _ => "ARRAY"
  | .hash _ => "HASH"

/-- Modelled from the spec: the hash-key query — `Integer`, `Boolean` and
`String` values yield a `HashKey`, every other variant is ineligible (§3). -/
def Object.get_hash_key : Object → Option HashKey
  | .integer v => some (.integer v)
  | .boolean v => some (.boolean v)
  | .string v => some (.string v)
  | _ => none

/-! ## Environments as a store of frames -/

/-- Modelled from the spec: a binding store with an optional link to an
enclosing environment (§3/§4.2). `outer` is an index into the store. -/
structure Environment where
  bindings : List (String × Object)
  outer : Option Nat


/-- The arena of environment frames standing in for the
`Rc<RefCell<Environment>>` heap. -/
abbrev Store := List Environment

/-- Insert-or-overwrite a binding in a single frame's binding map
(`HashMap::insert`: last write wins). -/
def setBinding : List (String × Object) → String → Object → List (String × Object)
  | [], n, v => [(n, v)]
  | (k, w) :: rest, n, v =>
      if k = n then (k, v) :: rest else (k, w) :: setBinding rest n v

/-- Lookup in a single frame's binding map. -/
def getBinding : List (String × Object) → String → Option Object
  | [], _ => none
  | (k, w) :: rest, n => if k = n then some w else getBinding rest n

/-- Modelled from the spec: `Environment::get` — search the local frame,
then climb `outer` links until found or exhausted (§4.2). The `fuel`
argument bounds the climb; callers pass the store size, which suffices
because `outer` links always point to earlier allocations. -/
def envGet (store : Store) : Nat → Nat → String → Option Object
  | 0, _, _ => none
  | fuel + 1, ref, name =>
      match store.get? ref with
      | none => none
      | some e =>
          match getBinding e.bindings name with
          | some v => some v
          | none =>
              match e.outer with
              | some o => envGet store fuel o name
              | none => none

/-- Modelled from the spec: `Environment::set` — insert/overwrite in the
*local* frame only (§4.2), performed on the store at index `ref`. -/
def storeSet (store : Store) (ref : Nat) (name : String) (val : Object) : Store :=
  match store.get? ref with
  | none => store
  | some e => store.set ref { e with bindings := setBinding e.bindings name val }

/-- The root store: one empty global environment at index 0. -/
def store₀ : Store := [⟨[], none⟩]

/-! ## Evaluation outcomes -/

/-- Outcome of an evaluation step. `ok`/`err` mirror the source's
`Result<Object, EvalError>`; `panic` is the host's fatal runtime failure
(integer overflow, division by zero, out-of-bounds indexing, `usize`
underflow); `timeout` is the fuel artifact making recursion total. -/
inductive Res (α : Type) where
  | ok (a : α)
  | err (e : String)
  | panic (msg : String)
  | timeout

abbrev Outcome := Res Object

/-- A single-quote character, used in builtin diagnostic messages. -/
def squo : String := String.singleton (Char.ofNat 39)

/-- Wrap a name in single quotes, as the builtin error messages do. -/
def quoted (s : String) : String := squo ++ s ++ squo

/-! ## Fixed-width integer model -/

def i32Min : Int := -(2 ^ 31)

def i32Max : Int := 2 ^ 31 - 1

/-- `i32` arithmetic: in-range results are exact; out-of-range results
panic (host checked arithmetic). -/
def checkedI32 (n : Int) (opName : String) : Res Object :=
  if i32Min ≤ n ∧ n ≤ i32Max then .ok (.integer n)
  else .panic ("attempt to " ++ opName ++ " with overflow")

/-- The `as usize` cast applied to the evaluated array index
(`*integer as usize`): two's-complement reinterpretation into a 64-bit
unsigned integer, so negative indices become huge values. -/
def i32AsUsize (i : Int) : Nat := (i % (2 ^ 64 : Int)).toNat

/-- The `as i32` cast applied to `usize` lengths (`string.len() as i32`,
`array.len() as i32`): wrap modulo 2^32 and reinterpret as signed. -/
def usizeAsI32 (n : Nat) : Int :=
  let m : Int := (n : Int) % (2 ^ 32 : Int)
  if m ≤ i32Max then m else m - 2 ^ 32

/-! ## Pure evaluator helpers (from `src/evaluator/mod.rs`) -/

/-- `new_error` — build a value-level `Error` object. -/
def new_error (message : String) : Object := .error message

/-- `is_truthy` — everything but `Boolean(false)` and `Null` is truthy. -/
def is_truthy : Object → Bool
  | .boolean false => false
  | .null => false
  | _ => true

/-- `get_bool_object`. -/
def get_bool_object (expr : Bool) : Object :=
  if expr then .boolean true else .boolean false

/-- `eval_bang_operator_expression`. -/
def eval_bang_operator_expression : Object → Res Object
  | .boolean true => .ok (.boolean false)
  | .boolean false => .ok (.boolean true)
  | .null => .ok (.boolean true)
  | _ => .ok (.boolean false)

/-- `eval_minus_operator_expression` — `-value` on `i32` panics when the
result leaves the `i32` range (i.e. on `i32::MIN`). -/
def eval_minus_operator_expression (expr : Object) : Res Object :=
  match expr with
  | .integer value => checkedI32 (-value) "negate"
  | _ => .err ("unknown operator: -" ++ expr.get_type_str)

/-- `eval_prefix_expression` — dispatch on the operator's literal text. -/
def eval_prefix_expression (operator : String) (expr : Object) : Res Object :=
  if operator = "!" then eval_bang_operator_expression expr
  else if operator = "-" then eval_minus_operator_expression expr
  else .err ("unknown operator: " ++ operator ++ expr.get_type_str)

/-- `eval_integer_infix_expression` — `i32` arithmetic with host-checked
overflow, `/` truncating toward zero and panicking on a zero divisor. -/
def eval_integer_infix_expression (operator : String) (lhs rhs : Int) : Res Object :=
  match operator with
  | "+" => checkedI32 (lhs + rhs) "add"
  | "-" => checkedI32 (lhs - rhs) "subtract"
  | "*" => checkedI32 (lhs * rhs) "multiply"
  | "/" =>
      if rhs = 0 then .panic "attempt to divide by zero"
      else checkedI32 (Int.tdiv lhs rhs) "divide"
  | "<" => .ok (get_bool_object (decide (lhs < rhs)))
  | ">" => .ok (get_bool_object (decide (rhs < lhs)))
  | "==" => .ok (get_bool_object (decide (lhs = rhs)))
  | "!=" => .ok (get_bool_object (decide (lhs ≠ rhs)))
  | _ => .err ("unknown operator: INTEGER " ++ operator ++ " INTEGER")

/-- `eval_boolean_infix_expression`. -/
def eval_boolean_infix_expression (operator : String) (lhs rhs : Bool) : Res Object :=
  match operator with
  | "==" => .ok (get_bool_object (lhs == rhs))
  | "!=" => .ok (get_bool_object (lhs != rhs))
  | _ => .err ("unknown operator: BOOLEAN " ++ operator ++ " BOOLEAN")

/-- `eval_string_infix_expression` — only `+` (concatenation). -/
def eval_string_infix_expression (operator : String) (lhs rhs : String) : Res Object :=
  match operator with
  | "+" => .ok (.string (lhs ++ rhs))
  | _ => .err ("unknown operator: STRING " ++ operator ++ " STRING")

/-- `eval_infix_expression` — resolved by the *pair* of operand types. -/
def eval_infix_expression (operator : String) (lhs rhs : Object) : Res Object :=
  match lhs, rhs with
  | .integer lv, .integer rv => eval_integer_infix_expression operator lv rv
  | .boolean lv, .boolean rv => eval_boolean_infix_expression operator lv rv
  | .string lv, .string rv => eval_string_infix_expression operator lv rv
  | _, _ =>
      .err ("unknown operator: " ++ lhs.get_type_str ++ " " ++ operator ++ " "
        ++ rhs.get_type_str)

/-! ## Hash-map model (`BTreeMap<HashKey, HashPair>`) -/

/-- Modelled from the spec: the derived key's natural (total) order used
by the `BTreeMap` — within a variant, the value's natural order;
across variants, the declaration rank. Strings compare by codepoint,
which coincides with Rust's byte-wise order on UTF-8. -/
def charListLt : List Char → List Char → Bool
  | _, [] => false
  | [], _ :: _ => true
  | a :: as, b :: bs =>
      if a.toNat < b.toNat then true
      else if b.toNat < a.toNat then false
      else charListLt as bs

/-- Variant rank of a `HashKey`, for the cross-variant part of the order. -/
def HashKey.rank : HashKey → Nat
  | .integer _ => 0
  | .boolean _ => 1
  | .string _ => 2

/-- Modelled from the spec: the strict natural order on derived keys. -/
def HashKey.lt (a b : HashKey) : Bool :=
  match a, b with
  | .integer x, .integer y => decide (x < y)
  | .boolean x, .boolean y => !x && y
  | .string x, .string y => charListLt x.data y.data
  | _, _ => decide (a.rank < b.rank)

/-- `BTreeMap::get` on the key-ordered pair list. -/
def hashLookup : List (HashKey × Object × Object) → HashKey → Option Object
  | [], _ => none
  | (k, _, v) :: rest, key => if k = key then some v else hashLookup rest key

/-- `BTreeMap::insert` on the key-ordered pair list: keeps the list
sorted by the derived key and overwrites an existing entry. -/
def hashInsert : List (HashKey × Object × Object) → HashKey → Object → Object →
    List (HashKey × Object × Object)
  | [], k, key, v => [(k, key, v)]
  | (k', key', v') :: rest, k, key, v =>
      if HashKey.lt k k' then (k, key, v) :: (k', key', v') :: rest
      else if k = k' then (k, key, v) :: rest
      else (k', key', v') :: hashInsert rest k key v

/-! ## Index expressions -/

/-- `eval_array_index_expression` — the guard is `index > array.len() - 1`
on `usize`, so an empty array underflows (`0 - 1`) and panics before any
bounds decision is made; otherwise out-of-bounds yields `Null`. -/
def eval_array_index_expression (array : List Object) (index : Nat) : Res Object :=
  if array.length = 0 then .panic "attempt to subtract with overflow"
  else if index > array.length - 1 then .ok .null
  else
    match array.get? index with
    | some o => .ok o
    | none => .panic "index out of bounds"

/-- `eval_hash_index_expression` — ineligible index keys are a propagated
failure; an absent key yields `Null`. -/
def eval_hash_index_expression (hash : List (HashKey × Object × Object))
    (index : Object) : Res Object :=
  match index.get_hash_key with
  | some hash_key =>
      match hashLookup hash hash_key with
      | some v => .ok v
      | none => .ok .null
  | none => .err ("unusable as hash key: " ++ index.get_type_str)

/-- `eval_index_expression` — `Array[Integer]` goes through the `as usize`
cast; any index on a `Hash` goes to the hash rule; anything else is a
propagated failure naming the target's type. -/
def eval_index_expression (target index : Object) : Res Object :=
  match target, index with
  | .array array, .integer integer => eval_array_index_expression array (i32AsUsize integer)
  | .hash hash, idx => eval_hash_index_expression hash idx
  | _, _ => .err ("index operator not supported: " ++ target.get_type_str)

/-! ## Builtin registry (`get_builtin_fn`) -/

/-- The `len` builtin. -/
def builtin_len (objs : List Object) : Object :=
  match objs with
  | [o] =>
      match o with
      | .string string => .integer (usizeAsI32 string.utf8ByteSize)
      | .array array => .integer (usizeAsI32 array.length)
      | _ =>
          new_error ("argument to " ++ quoted "len" ++ " not supported, found "
            ++ o.get_type_str)
  | _ =>
      new_error ("wrong number of arguments: expected 1, found "
        ++ toString objs.length)

/-- The `first` builtin. -/
def builtin_first (objs : List Object) : Object :=
  match objs with
  | [o] =>
      match o with
      | .array elements =>
          match elements with
          | e :: _ => e
          | [] => .null
      | _ =>
          new_error ("argument to " ++ quoted "first" ++ " must be ARRAY, found "
            ++ o.get_type_str)
  | _ =>
      new_error ("wrong number of arguments: expected 1, found "
        ++ toString objs.length)

/-- The `last` builtin. -/
def builtin_last (objs : List Object) : Object :=
  match objs with
  | [o] =>
      match o with
      | .array elements => elements.getLastD .null
      | _ =>
          new_error ("argument to " ++ quoted "last" ++ " must be ARRAY, found "
            ++ o.get_type_str)
  | _ =>
      new_error ("wrong number of arguments: expected 1, found "
        ++ toString objs.length)

/-- The `rest` builtin. -/
def builtin_rest (objs : List Object) : Object :=
  match objs with
  | [o] =>
      match o with
      | .array elements =>
          match elements with
          | _ :: tl => .array tl
          | [] => .null
      | _ =>
          new_error ("argument to " ++ quoted "rest" ++ " must be ARRAY, found "
            ++ o.get_type_str)
  | _ =>
      new_error ("wrong number of arguments: expected 1, found "
        ++ toString objs.length)

/-- The `push` builtin — returns a fresh array, never mutating its input. -/
def builtin_push (objs : List Object) : Object :=
  match objs with
  | [a, x] =>
      match a with
      | .array elements => .array (elements ++ [x])
      | _ =>
          new_error ("argument to " ++ quoted "push" ++ " must be ARRAY, found "
            ++ a.get_type_str)
  | _ =>
      new_error ("wrong number of arguments: expected 2, found "
        ++ toString objs.length)

/-- The `puts` builtin — prints (side effect outside the model) and
returns `Null` for every argument list. -/
def builtin_puts (_objs : List Object) : Object := .null

/-- Semantics of a registered builtin, by registry name. The default
branch is unreachable: `Object.builtin` values are only created by
`get_builtin_fn` for the six registered names. -/
def applyBuiltin : String → List Object → Object
  | "len", objs => builtin_len objs
  | "first", objs => builtin_first objs
  | "last", objs => builtin_last objs
  | "rest", objs => builtin_rest objs
  | "push", objs => builtin_push objs
  | "puts", objs => builtin_puts objs
  | name, _ => new_error ("unknown builtin: " ++ name)

/-- `get_builtin_fn` — the fixed name-indexed registry. -/
def get_builtin_fn : String → Option Object
  | "len" => some (.builtin "len")
  | "first" => some (.builtin "first")
  | "last" => some (.builtin "last")
  | "rest" => some (.builtin "rest")
  | "push" => some (.builtin "push")
  | "puts" => some (.builtin "puts")
  | _ => none

/-- `eval_identifier` — environment chain first, then the builtin
registry, then a propagated "identifier not found" failure. -/
def eval_identifier (name : String) (envRef : Nat) (store : Store) : Res Object :=
  match envGet store store.length envRef name with
  | some val => .ok val
  | none =>
      match get_builtin_fn name with
      | some builtin => .ok builtin
      | none => .err ("identifier not found: " ++ name)

/-- The parameter-binding loop of `extend_function_env`:
`for (i, param) in parameters.iter().enumerate() { env.set(param, args[i]) }`.
Reading `args[i]` past the end of the argument list panics. -/
def bindParameters (parameters : List String) (args : List Object) (i : Nat)
    (bindings : List (String × Object)) : Res (List (String × Object)) :=
  match parameters with
  | [] => .ok bindings
  | p :: rest =>
      match args.get? i with
      | none => .panic "index out of bounds"
      | some a => bindParameters rest args (i + 1) (setBinding bindings p a)

/-- `extend_function_env` — clone the captured environment
(`env.borrow().clone()`), allocate the clone (`new_enclosed` wraps it as
the `outer` link of a fresh empty frame), and bind parameters
positionally. Returns the fresh frame (not yet allocated) and the
extended store. -/
def extend_function_env (parameters : List String) (envRef : Nat)
    (args : List Object) (store : Store) : Res Environment × Store :=
  match store.get? envRef with
  | none => (.panic "invalid environment reference", store)
  | some captured =>
      let cloneRef := store.length
      let store' := store ++ [captured]
      match bindParameters parameters args 0 [] with
      | .ok bindings => (.ok ⟨bindings, some cloneRef⟩, store')
      | .err e => (.err e, store')
      | .panic m => (.panic m, store')
      | .timeout => (.timeout, store')

/-! ## The evaluator (`eval_program` / `eval_block_statement` /
`eval_statement` / `eval_expression` / `eval_expressions` /
`eval_hash_literal` / `eval_if_expression` / `apply_function`),
mutually recursive on a fuel parameter. -/

mutual

/-- `eval_program` — run the statements left to right; a `ReturnValue`
stops the sequence and is *unwrapped*; otherwise the last statement's
result (initially `Null`) is the program's result. -/
def eval_program (fuel : Nat) (stmts : List Statement) (envRef : Nat)
    (store : Store) : Outcome × Store :=
  match fuel with
  | 0 => (.timeout, store)
  | fuel + 1 =>
      match stmts with
      | [] => (.ok .null, store)
      | stmt :: rest =>
          match eval_statement fuel stmt envRef store with
          | (.ok result, s') =>
              match result with
              | .returnValue value => (.ok value, s')
              | _ =>
                  match rest with
                  | [] => (.ok result, s')
                  | _ :: _ => eval_program fuel rest envRef s'
          | other => other
  termination_by structural fuel

/-- `eval_block_statement` — like `eval_program`, but a `ReturnValue`
stops the sequence and is returned *still wrapped*. -/
def eval_block_statement (fuel : Nat) (stmts : List Statement) (envRef : Nat)
    (store : Store) : Outcome × Store :=
  match fuel with
  | 0 => (.timeout, store)
  | fuel + 1 =>
      match stmts with
      | [] => (.ok .null, store)
      | stmt :: rest =>
          match eval_statement fuel stmt envRef store with
          | (.ok result, s') =>
              match result with
              | .returnValue value => (.ok (.returnValue value), s')
              | _ =>
                  match rest with
                  | [] => (.ok result, s')
                  | _ :: _ => eval_block_statement fuel rest envRef s'
          | other => other
  termination_by structural fuel

/-- `eval_statement` — `let` evaluates the value then writes the current
frame and yields `Null`; `return` wraps; an expression statement is its
expression's result. -/
def eval_statement (fuel : Nat) (stmt : Statement) (envRef : Nat)
    (store : Store) : Outcome × Store :=
  match fuel with
  | 0 => (.timeout, store)
  | fuel + 1 =>
      match stmt with
      | .letS name value =>
          match eval_expression fuel value envRef store with
          | (.ok val, s') => (.ok .null, storeSet s' envRef name val)
          | other => other
      | .returnS valueExpr =>
          match eval_expression fuel valueExpr envRef store with
          | (.ok value, s') => (.ok (.returnValue value), s')
          | other => other
      | .exprS expr => eval_expression fuel expr envRef store
  termination_by structural fuel

/-- `eval_expression` — the expression dispatch of the source. -/
def eval_expression (fuel : Nat) (expr : Expression) (envRef : Nat)
    (store : Store) : Outcome × Store :=
  match fuel with
  | 0 => (.timeout, store)
  | fuel + 1 =>
      match expr with
      | .identifier name => (eval_identifier name envRef store, store)
      | .integer value => (.ok (.integer value), store)
      | .boolean value => (.ok (get_bool_object value), store)
      | .string value => (.ok (.string value), store)
      | .prefixE operator operand =>
          match eval_expression fuel operand envRef store with
          | (.ok rhs, s') => (eval_prefix_expression operator rhs, s')
          | other => other
      | .infixE operator lhsE rhsE =>
          match eval_expression fuel lhsE envRef store with
          | (.ok lhs, s1) =>
              match eval_expression fuel rhsE envRef s1 with
              | (.ok rhs, s2) => (eval_infix_expression operator lhs rhs, s2)
              | other => other
          | other => other
      | .ifE cond cons alt => eval_if_expression fuel cond cons alt envRef store
      | .fnLiteral parameters body =>
          (.ok (.function parameters body envRef), store)
      | .arrayLiteral elements =>
          match eval_expressions fuel elements envRef store with
          | (.ok objs, s') => (.ok (.array objs), s')
          | (.err e, s') => (.err e, s')
          | (.panic m, s') => (.panic m, s')
          | (.timeout, s') => (.timeout, s')
      | .hashLiteral pairs =>
          match eval_hash_literal fuel pairs envRef [] store with
          | (.ok l, s') => (.ok (.hash l), s')
          | (.err e, s') => (.err e, s')
          | (.panic m, s') => (.panic m, s')
          | (.timeout, s') => (.timeout, s')
      | .call fexpr arguments =>
          match eval_expression fuel fexpr envRef store with
          | (.ok function, s1) =>
              match eval_expressions fuel arguments envRef s1 with
              | (.ok args, s2) =>
                  match args with
                  | [Object.error m] => (.ok (.error m), s2)
                  | _ => apply_function fuel function args s2
              | (.err e, s2) => (.err e, s2)
              | (.panic m, s2) => (.panic m, s2)
              | (.timeout, s2) => (.timeout, s2)
          | other => other
      | .indexE targetE indexE =>
          match eval_expression fuel targetE envRef store with
          | (.ok target, s1) =>
              match eval_expression fuel indexE envRef s1 with
              | (.ok index, s2) => (eval_index_expression target index, s2)
              | other => other
          | other => other
  termination_by structural fuel

/-- `eval_if_expression` — the condition decides which block runs, in the
*same* environment; no alternative means `Null`. -/
def eval_if_expression (fuel : Nat) (cond : Expression) (cons : List Statement)
    (alt : Option (List Statement)) (envRef : Nat) (store : Store) :
    Outcome × Store :=
  match fuel with
  | 0 => (.timeout, store)
  | fuel + 1 =>
      match eval_expression fuel cond envRef store with
      | (.ok condition, s') =>
          if is_truthy condition then eval_block_statement fuel cons envRef s'
          else
            match alt with
            | some alternative => eval_block_statement fuel alternative envRef s'
            | none => (.ok .null, s')
      | other => other
  termination_by structural fuel

/-- `eval_expressions` — evaluate a list left to right, stopping at the
first propagated failure. -/
def eval_expressions (fuel : Nat) (exprs : List Expression) (envRef : Nat)
    (store : Store) : Res (List Object) × Store :=
  match fuel with
  | 0 => (.timeout, store)
  | fuel + 1 =>
      match exprs with
      | [] => (.ok [], store)
      | e :: rest =>
          match eval_expression fuel e envRef store with
          | (.ok v, s') =>
              match eval_expressions fuel rest envRef s' with
              | (.ok vs, s'') => (.ok (v :: vs), s'')
              | other => other
          | (.err e', s') => (.err e', s')
          | (.panic m, s') => (.panic m, s')
          | (.timeout, s') => (.timeout, s')
  termination_by structural fuel

/-- `eval_hash_literal` — evaluate key/value pairs left to right; an
ineligible key fails the whole literal; eligible pairs go through the
ordered map's insert (later duplicates overwrite). -/
def eval_hash_literal (fuel : Nat) (pairs : List (Expression × Expression))
    (envRef : Nat) (acc : List (HashKey × Object × Object)) (store : Store) :
    Res (List (HashKey × Object × Object)) × Store :=
  match fuel with
  | 0 => (.timeout, store)
  | fuel + 1 =>
      match pairs with
      | [] => (.ok acc, store)
      | (keyExpr, valueExpr) :: rest =>
          match eval_expression fuel keyExpr envRef store with
          | (.ok key, s1) =>
              match key.get_hash_key with
              | some hash_key =>
                  match eval_expression fuel valueExpr envRef s1 with
                  | (.ok value, s2) =>
                      eval_hash_literal fuel rest envRef
                        (hashInsert acc hash_key key value) s2
                  | (.err e', s2) => (.err e', s2)
                  | (.panic m, s2) => (.panic m, s2)
                  | (.timeout, s2) => (.timeout, s2)
              | none =>
                  (.err ("unusable as hash key: " ++ key.get_type_str), s1)
          | (.err e', s1) => (.err e', s1)
          | (.panic m, s1) => (.panic m, s1)
          | (.timeout, s1) => (.timeout, s1)
  termination_by structural fuel

/-- `apply_function` — a user `Function` gets a fresh environment enclosed
by (a clone of) its captured one, its body is run as a block and a
`ReturnValue` is unwrapped; a `Builtin` is invoked directly and its result
returned verbatim; anything else is a propagated "not a function". -/
def apply_function (fuel : Nat) (function : Object) (args : List Object)
    (store : Store) : Outcome × Store :=
  match fuel with
  | 0 => (.timeout, store)
  | fuel + 1 =>
      match function with
      | .function parameters body envRef =>
          match extend_function_env parameters envRef args store with
          | (.ok env, s') =>
              let extendedRef := s'.length
              let s'' := s' ++ [env]
              match eval_block_statement fuel body extendedRef s'' with
              | (.ok evaluated, s3) =>
                  match evaluated with
                  | .returnValue value => (.ok value, s3)
                  | _ => (.ok evaluated, s3)
              | other => other
          | (.err e, s') => (.err e, s')
          | (.panic m, s') => (.panic m, s')
          | (.timeout, s') => (.timeout, s')
      | .builtin name => (.ok (applyBuiltin name args), store)
      | _ => (.err ("not a function: " ++ function.get_type_str), store)
  termination_by structural fuel

end

/-- The `Node` input of the top-level `eval` entry point. -/
inductive Node where
  | program (stmts : List Statement)
  | statement (stmt : Statement)
  | expression (expr : Expression)

/-- `eval` — the single entry point: a propagated failure is flattened
into an `Error`-variant object at this boundary. -/
def eval (fuel : Nat) (node : Node) (envRef : Nat) (store : Store) :
    Outcome × Store :=
  match node with
  | .program stmts =>
      match eval_program fuel stmts envRef store with
      | (.ok evaluated, s') => (.ok evaluated, s')
      | (.err err, s') => (.ok (.error err), s')
      | other => other
  | .statement stmt =>
      match eval_statement fuel stmt envRef store with
      | (.ok evaluated, s') => (.ok evaluated, s')
      | (.err err, s') => (.ok (.error err), s')
      | other => other
  | .expression expr =>
      match eval_expression fuel expr envRef store with
      | (.ok evaluated, s') => (.ok evaluated, s')
      | (.err err, s') => (.ok (.error err), s')
      | other => other

/-! ## Auxiliary predicates and example programs used in the theorems -/

/-- The `i32` value range. -/
abbrev inRangeI32 (n : Int) : Prop := i32Min ≤ n ∧ n ≤ i32Max

/-- The pair list of a hash object is strictly increasing in the derived
key's natural order (the `BTreeMap` invariant). -/
abbrev HashSorted (l : List (HashKey × Object × Object)) : Prop :=
  List.Chain' (fun a b => HashKey.lt a.1 b.1 = true) l

/-- `let newAdder = fn(x) { fn(y) { x + y } }; let addTwo = newAdder(2);
addTwo(3)` — the spec's closure-capture example. -/
def egNewAdder : List Statement :=
  [ .letS "newAdder" (.fnLiteral ["x"]
      [.exprS (.fnLiteral ["y"]
        [.exprS (.infixE "+" (.identifier "x") (.identifier "y"))])]),
    .letS "addTwo" (.call (.identifier "newAdder") [.integer 2]),
    .exprS (.call (.identifier "addTwo") [.integer 3]) ]

/-- `let f = fn() { if (true) { if (true) { return 10; } return 1; } };
f() + 1` — a `return` nested inside `if` blocks ends only the function
body (skipping `return 1`), and the program continues after the call. -/
def egNestedReturn : List Statement :=
  [ .letS "f" (.fnLiteral []
      [ .exprS (.ifE (.boolean true)
          [ .exprS (.ifE (.boolean true) [.returnS (.integer 10)] none),
            .returnS (.integer 1) ]
          none) ]),
    .exprS (.infixE "+" (.call (.identifier "f") []) (.integer 1)) ]

/-- `return 5; 9;` — a top-level `return` ends the whole program. -/
def egTopReturn : List Statement :=
  [.returnS (.integer 5), .exprS (.integer 9)]

/-- `let x = if (true) { let x = 99; nosuch };` — the right-hand side of
the outer `let` fails after its `if` block (which runs in the same
frame) has already bound `x`. -/
def egLetIfMutates : Statement :=
  .letS "x" (.ifE (.boolean true)
    [.letS "x" (.integer 99), .exprS (.identifier "nosuch")] none)

/-! # Theorems -/

/-! ## Shared helper lemmas -/

/-- Indexing a non-empty array in bounds returns the element. -/
theorem array_index_in_bounds (arr : List Object) (idx : Nat) (v : Object)
    (hidx : arr.get? idx = some v) :
    eval_array_index_expression arr idx = .ok v := by
  have hlt : idx < arr.length := by
    cases h : arr.get? idx with
    | none => rw [h] at hidx; cases hidx
    | some w => exact (List.get?_eq_some.mp h).1
  unfold eval_array_index_expression
  rw [if_neg (by omega), if_neg (by omega), hidx]

/-- Indexing a non-empty array out of bounds returns `Null`. -/
theorem array_index_out_of_bounds (arr : List Object) (idx : Nat)
    (hne : arr ≠ []) (hge : arr.length ≤ idx) :
    eval_array_index_expression arr idx = .ok .null := by
  have hlen : arr.length ≠ 0 := by
    intro h0
    exact hne (List.length_eq_zero.mp h0)
  unfold eval_array_index_expression
  rw [if_neg hlen, if_pos (by omega)]

/-! ## C5 — integer arithmetic -/

/-- **C5** (amended): for `Integer` operands in the signed 32-bit range,
`eval(a + b) = Integer(a+b)`, `eval(a - b) = Integer(a-b)`,
`eval(a * b) = Integer(a*b)`, `eval(a / b) = Integer(a/b)` with `/`
truncating toward zero (`Int.tdiv`), and `eval(-a) = Integer(-a)` —
*provided* the mathematical result is itself in the 32-bit range and the
divisor is nonzero; otherwise the host's `i32` arithmetic panics instead
of producing an `Integer`. -/
theorem c5_integer_arithmetic (fuel : Nat) (a b : Int) (envRef : Nat)
    (store : Store) (_ha : inRangeI32 a) (_hb : inRangeI32 b) :
    (inRangeI32 (a + b) →
      eval_expression (fuel + 2) (.infixE "+" (.integer a) (.integer b)) envRef store
        = (.ok (.integer (a + b)), store))
    ∧ (inRangeI32 (a - b) →
      eval_expression (fuel + 2) (.infixE "-" (.integer a) (.integer b)) envRef store
        = (.ok (.integer (a - b)), store))
    ∧ (inRangeI32 (a * b) →
      eval_expression (fuel + 2) (.infixE "*" (.integer a) (.integer b)) envRef store
        = (.ok (.integer (a * b)), store))
    ∧ (b ≠ 0 → inRangeI32 (Int.tdiv a b) →
      eval_expression (fuel + 2) (.infixE "/" (.integer a) (.integer b)) envRef store
        = (.ok (.integer (Int.tdiv a b)), store))
    ∧ (inRangeI32 (-a) →
      eval_expression (fuel + 2) (.prefixE "-" (.integer a)) envRef store
        = (.ok (.integer (-a)), store)) := by
  refine ⟨?_, ?_, ?_, ?_, ?_⟩
  · intro h
    show (checkedI32 (a + b) "add", store) = _
    rw [checkedI32, if_pos h]
  · intro h
    show (checkedI32 (a - b) "subtract", store) = _
    rw [checkedI32, if_pos h]
  · intro h
    show (checkedI32 (a * b) "multiply", store) = _
    rw [checkedI32, if_pos h]
  · intro hb0 h
    show ((if b = 0 then Res.panic "attempt to divide by zero"
        else checkedI32 (Int.tdiv a b) "divide"), store) = _
    rw [if_neg hb0, checkedI32, if_pos h]
  · intro h
    show (checkedI32 (-a) "negate", store) = _
    rw [checkedI32, if_pos h]

/-- **C5** counterexample: at `a = 1, b = 0` division panics (it does not
produce `Integer(1/0)`), and at `a = 2147483647, b = 1` (both operands in
range) addition overflows and panics rather than producing an `Integer`;
so the claim's unconditional equations fail. -/
theorem c5_counterexample :
    (eval_expression 2 (.infixE "/" (.integer 1) (.integer 0)) 0 store₀).1
      = .panic "attempt to divide by zero"
    ∧ (eval_expression 2 (.infixE "/" (.integer 1) (.integer 0)) 0 store₀).1
      ≠ .ok (.integer (Int.tdiv 1 0))
    ∧ (eval_expression 2 (.infixE "+" (.integer 2147483647) (.integer 1)) 0 store₀).1
      = .panic "attempt to add with overflow"
    ∧ (eval_expression 2 (.infixE "+" (.integer 2147483647) (.integer 1)) 0 store₀).1
      ≠ .ok (.integer (2147483647 + 1)) := by
  refine ⟨rfl, ?_, rfl, ?_⟩ <;> (intro h; exact Res.noConfusion h)

/-- **C5** witness: the amended theorem at `a = 3`, `b = 4`. -/
theorem c5_witness :
    eval_expression 2 (.infixE "+" (.integer 3) (.integer 4)) 0 store₀
      = (.ok (.integer 7), store₀) :=
  (c5_integer_arithmetic 0 3 4 0 store₀ (by constructor <;> decide)
    (by constructor <;> decide)).1 (by constructor <;> decide)

/-! ## C4 — array indexing -/

/-- **C4** (amended): for every *non-empty* `Array` and `Integer` index,
indexing returns the element in bounds and `Null` out of bounds (negative
indices land out of bounds through the unsigned `as usize` conversion);
in particular `[1,2,3][5]` evaluates to `Null`. For the empty array the
bounds computation `array.len() - 1` underflows on `usize` and the
evaluation panics instead of returning `Null`. -/
theorem c4_array_index :
    (∀ (arr : List Object) (idx : Nat) (v : Object), arr.get? idx = some v →
        eval_array_index_expression arr idx = .ok v)
    ∧ (∀ (arr : List Object) (idx : Nat), arr ≠ [] → arr.length ≤ idx →
        eval_array_index_expression arr idx = .ok .null)
    ∧ (∀ (arr : List Object) (i : Int), arr ≠ [] → i32Min ≤ i → i < 0 →
        (arr.length : Int) ≤ 2 ^ 31 →
        eval_index_expression (.array arr) (.integer i) = .ok .null)
    ∧ (eval_expression 9 (.indexE
        (.arrayLiteral [.integer 1, .integer 2, .integer 3]) (.integer 5))
        0 store₀).1 = .ok .null := by
  refine ⟨array_index_in_bounds, array_index_out_of_bounds, ?_, rfl⟩
  intro arr i hne hlo hneg hlen
  have hlo' : -(2147483648 : Int) ≤ i := hlo
  show eval_array_index_expression arr (i32AsUsize i) = .ok .null
  refine array_index_out_of_bounds arr _ hne ?_
  show arr.length ≤ (i % (2 ^ 64 : Int)).toNat
  omega

/-- **C4** counterexample: indexing the *empty* array panics (the `usize`
bounds computation underflows); it does not return `Null`, so the claim's
"for every array including the empty array" fails at `[][0]`. -/
theorem c4_counterexample :
    (eval_expression 9 (.indexE (.arrayLiteral []) (.integer 0)) 0 store₀).1
      = .panic "attempt to subtract with overflow"
    ∧ (eval_expression 9 (.indexE (.arrayLiteral []) (.integer 0)) 0 store₀).1
      ≠ .ok .null := by
  refine ⟨rfl, ?_⟩
  intro h
  exact Res.noConfusion h

/-- **C4** witness: the amended theorem on `[1,2,3]` at indices 1 (in
bounds), 5 (out of bounds) and -1 (negative). -/
theorem c4_witness :
    eval_array_index_expression [.integer 1, .integer 2, .integer 3] 1
      = .ok (.integer 2)
    ∧ eval_array_index_expression [.integer 1, .integer 2, .integer 3] 5
      = .ok .null
    ∧ eval_index_expression (.array [.integer 1, .integer 2, .integer 3])
        (.integer (-1)) = .ok .null :=
  ⟨c4_array_index.1 [.integer 1, .integer 2, .integer 3] 1 (.integer 2) rfl,
   c4_array_index.2.1 [.integer 1, .integer 2, .integer 3] 5
     (by simp) (by simp),
   c4_array_index.2.2.1 [.integer 1, .integer 2, .integer 3] (-1)
     (by simp) (by decide) (by decide) (by simp)⟩

/-! ## C9 — if expressions and truthiness -/

/-- **C9**: for every `if` expression the condition is evaluated first;
a truthy condition (anything but `Boolean false` and `Null`, including
`Integer 0` and the empty `String`) runs the consequence block in the
*same* environment; a falsy condition runs the alternative if present and
yields `Null` otherwise — so `if (false) { 10 }` yields `Null`. -/
theorem c9_if_expression :
    (∀ (fuel : Nat) (cond : Expression) (cons : List Statement)
        (alt : Option (List Statement)) (envRef : Nat) (store : Store),
      eval_expression (fuel + 1) (.ifE cond cons alt) envRef store
        = eval_if_expression fuel cond cons alt envRef store)
    ∧ (∀ (fuel : Nat) (cond : Expression) (cons : List Statement)
        (alt : Option (List Statement)) (envRef : Nat) (store : Store)
        (c : Object) (s' : Store),
        eval_expression fuel cond envRef store = (.ok c, s') →
        (is_truthy c = true →
          eval_if_expression (fuel + 1) cond cons alt envRef store
            = eval_block_statement fuel cons envRef s')
        ∧ (is_truthy c = false → ∀ altB, alt = some altB →
          eval_if_expression (fuel + 1) cond cons alt envRef store
            = eval_block_statement fuel altB envRef s')
        ∧ (is_truthy c = false → alt = none →
          eval_if_expression (fuel + 1) cond cons alt envRef store
            = (.ok .null, s')))
    ∧ (is_truthy (.integer 0) = true ∧ is_truthy (.string "") = true
        ∧ is_truthy (.boolean false) = false ∧ is_truthy .null = false
        ∧ ∀ o : Object, o ≠ .boolean false → o ≠ .null → is_truthy o = true)
    ∧ (eval_expression 9 (.ifE (.boolean false) [.exprS (.integer 10)] none)
        0 store₀).1 = .ok .null := by
  refine ⟨fun _ _ _ _ _ _ => rfl, ?_, ⟨rfl, rfl, rfl, rfl, ?_⟩, rfl⟩
  · intro fuel cond cons alt envRef store c s' hc
    refine ⟨?_, ?_, ?_⟩
    · intro ht
      simp only [eval_if_expression, hc, ht, if_true]
    · intro ht altB halt
      subst halt
      simp only [eval_if_expression, hc, ht, Bool.false_eq_true, if_false]
    · intro ht halt
      subst halt
      simp only [eval_if_expression, hc, ht, Bool.false_eq_true, if_false]
  · intro o h1 h2
    cases o
    case boolean b =>
      cases b
      · exact absurd rfl h1
      · rfl
    case null => exact absurd rfl h2
    all_goals rfl

/-- **C9** witness: the theorem's condition rule at the concrete input
`if (true) { 1 }` in the root environment. -/
theorem c9_witness :
    eval_if_expression 2 (.boolean true) [.exprS (.integer 1)] none 0 store₀
      = eval_block_statement 1 [.exprS (.integer 1)] 0 store₀ :=
  (c9_if_expression.2.1 1 (.boolean true) [.exprS (.integer 1)] none 0 store₀
    (.boolean true) store₀ rfl).1 rfl

/-! ## C2 — statement sequences, `ReturnValue` and early exit -/

/-- **C2**: statement sequences run left to right and yield the last
statement's result; a statement yielding a `ReturnValue` stops the
sequence immediately — a block returns it *still wrapped* while a
top-level program *unwraps* it. Hence a `return` nested in `if` blocks
inside a function body ends only that body (`egNestedReturn` evaluates
to `Integer 11` because the body yields `10`, `return 1` is skipped and
the program continues), while `return 5; 9` ends the whole program with
`Integer 5`. -/
theorem c2_statement_sequences :
    (∀ (fuel envRef : Nat) (store : Store),
        eval_program (fuel + 1) [] envRef store = (.ok .null, store)
        ∧ eval_block_statement (fuel + 1) [] envRef store = (.ok .null, store))
    ∧ (∀ (fuel : Nat) (st : Statement) (rest : List Statement)
        (envRef : Nat) (store : Store) (v : Object) (s' : Store),
        eval_statement fuel st envRef store = (.ok (.returnValue v), s') →
        eval_block_statement (fuel + 1) (st :: rest) envRef store
          = (.ok (.returnValue v), s')
        ∧ eval_program (fuel + 1) (st :: rest) envRef store = (.ok v, s'))
    ∧ (∀ (fuel : Nat) (st st2 : Statement) (rest : List Statement)
        (envRef : Nat) (store : Store) (r : Object) (s' : Store),
        eval_statement fuel st envRef store = (.ok r, s') →
        (∀ v, r ≠ .returnValue v) →
        eval_block_statement (fuel + 1) (st :: st2 :: rest) envRef store
          = eval_block_statement fuel (st2 :: rest) envRef s'
        ∧ eval_program (fuel + 1) (st :: st2 :: rest) envRef store
          = eval_program fuel (st2 :: rest) envRef s')
    ∧ (∀ (fuel : Nat) (st : Statement) (envRef : Nat) (store : Store)
        (r : Object) (s' : Store),
        eval_statement fuel st envRef store = (.ok r, s') →
        (∀ v, r ≠ .returnValue v) →
        eval_block_statement (fuel + 1) [st] envRef store = (.ok r, s')
        ∧ eval_program (fuel + 1) [st] envRef store = (.ok r, s'))
    ∧ (eval_program 30 egNestedReturn 0 store₀).1 = .ok (.integer 11)
    ∧ (eval_program 9 egTopReturn 0 store₀).1 = .ok (.integer 5) := by
  refine ⟨fun _ _ _ => ⟨rfl, rfl⟩, ?_, ?_, ?_, rfl, rfl⟩
  · intro fuel st rest envRef store v s' h
    exact ⟨by simp only [eval_block_statement, h], by simp only [eval_program, h]⟩
  · intro fuel st st2 rest envRef store r s' h hr
    exact ⟨by simp only [eval_block_statement, h],
           by simp only [eval_program, h]⟩
  · intro fuel st envRef store r s' h hr
    exact ⟨by simp only [eval_block_statement, h],
           by simp only [eval_program, h]⟩

/-- **C2** witness: the stop-on-return rule at the concrete program
`return 5; 9`. -/
theorem c2_witness :
    eval_program (5 + 1) [.returnS (.integer 5), .exprS (.integer 9)] 0 store₀
      = (.ok (.integer 5), store₀) :=
  (c2_statement_sequences.2.1 5 (.returnS (.integer 5)) [.exprS (.integer 9)]
    0 store₀ (.integer 5) store₀ rfl).2

/-! ## C3 — the narrow single-argument error check on calls -/

/-- **C3**: after the callee and the arguments evaluate, the call
short-circuits on an `Error` *value* in the argument list exactly when
that list is `[Error m]` — returning the error without applying the
callee (whatever it is); for any other argument list (no arguments, two
or more arguments, or a single non-error argument) the call proceeds to
`apply_function`; an `Error` value sitting in the *callee* position is
never short-circuited and reaches `apply_function`, which rejects it
with a propagated "not a function: ERROR" failure. -/
theorem c3_call_error_check :
    (∀ (fuel : Nat) (fexpr : Expression) (aexprs : List Expression)
        (envRef : Nat) (store : Store) (fv : Object) (s1 : Store)
        (args : List Object) (s2 : Store),
      eval_expression fuel fexpr envRef store = (.ok fv, s1) →
      eval_expressions fuel aexprs envRef s1 = (.ok args, s2) →
      (∀ m, args = [Object.error m] →
        eval_expression (fuel + 1) (.call fexpr aexprs) envRef store
          = (.ok (.error m), s2))
      ∧ ((∀ m, args ≠ [Object.error m]) →
        eval_expression (fuel + 1) (.call fexpr aexprs) envRef store
          = apply_function fuel fv args s2))
    ∧ (∀ (fuel : Nat) (m : String) (args : List Object) (store : Store),
        apply_function (fuel + 1) (.error m) args store
          = (.err ("not a function: ERROR"), store)) := by
  refine ⟨?_, fun _ _ _ _ => rfl⟩
  intro fuel fexpr aexprs envRef store fv s1 args s2 hf ha
  constructor
  · intro m hm
    subst hm
    simp only [eval_expression, hf, ha]
  · intro hne
    simp only [eval_expression, hf, ha]

/-- **C3** witness: `7(len(1))` — the single evaluated argument is the
`Error` value produced by `len(1)`, so the call returns that error
without ever applying the non-function callee `7`. -/
theorem c3_witness :
    eval_expression (5 + 1)
      (.call (.integer 7) [.call (.identifier "len") [.integer 1]]) 0 store₀
      = (.ok (.error ("argument to " ++ quoted "len"
          ++ " not supported, found INTEGER")), store₀) :=
  ((c3_call_error_check.1 5 (.integer 7)
      [.call (.identifier "len") [.integer 1]] 0 store₀ (.integer 7) store₀
      [.error ("argument to " ++ quoted "len" ++ " not supported, found INTEGER")]
      store₀ rfl rfl).1 _ rfl)

/-! ## C7 — no arity validation on user-function application -/

/-- **C7**: parameter binding indexes the evaluated argument list
positionally with no arity validation: whenever a call supplies fewer
arguments than the function has parameters, the binding loop reads
`args[i]` past the end of the argument list and panics (the
out-of-bounds branch is reachable — e.g. `(fn(x) { x })()`), instead of
producing an arity error. -/
theorem c7_no_arity_check :
    (∀ (ps : List String) (args : List Object) (acc : List (String × Object)),
      args.length < ps.length →
      bindParameters ps args 0 acc = .panic "index out of bounds")
    ∧ (∀ (ps : List String) (envRef : Nat) (args : List Object) (store : Store)
        (captured : Environment),
      store.get? envRef = some captured → args.length < ps.length →
      extend_function_env ps envRef args store
        = (.panic "index out of bounds", store ++ [captured]))
    ∧ (eval_expression 9
        (.call (.fnLiteral ["x"] [.exprS (.identifier "x")]) []) 0 store₀).1
      = .panic "index out of bounds" := by
  have key : ∀ (ps : List String) (args : List Object) (i : Nat)
      (acc : List (String × Object)), i ≤ args.length →
      args.length < i + ps.length →
      bindParameters ps args i acc = .panic "index out of bounds" := by
    intro ps
    induction ps with
    | nil => intro args i acc h1 h2; simp at h2; omega
    | cons p rest ih =>
        intro args i acc h1 h2
        cases hget : args.get? i with
        | none => simp only [bindParameters, hget]
        | some a =>
            have hlt : i < args.length := (List.get?_eq_some.mp hget).1
            simp only [bindParameters, hget]
            exact ih args (i + 1) (setBinding acc p a) (by omega)
              (by simp at h2 ⊢; omega)
  refine ⟨fun ps args acc h => key ps args 0 acc (Nat.zero_le _) (by omega),
    ?_, rfl⟩
  intro ps envRef args store captured hcap hlt
  simp only [extend_function_env, hcap,
    key ps args 0 [] (Nat.zero_le _) (by omega)]

/-- **C7** witness: the binding-loop clause at one parameter and no
arguments, and the store-level clause in the root store. -/
theorem c7_witness :
    bindParameters ["x"] [] 0 [] = .panic "index out of bounds"
    ∧ extend_function_env ["x"] 0 [] store₀
      = (.panic "index out of bounds", store₀ ++ [⟨[], none⟩]) :=
  ⟨c7_no_arity_check.1 ["x"] [] [] (by decide),
   c7_no_arity_check.2.1 ["x"] 0 [] store₀ ⟨[], none⟩ rfl (by decide)⟩

/-! ## C8 — builtins validate their own arity/types and return `Error`
values -/

/-- **C8**: applying a `Builtin` returns the builtin's result verbatim as
an ordinary value (the `ok` outcome — never a propagated failure); every
builtin validates its own arity (`len`/`first`/`last`/`rest` expect 1,
`push` expects 2, `puts` accepts anything) and its argument types,
returning an `Error`-variant object on violation; in particular
`len("four")` is `Integer 4` and `len(1)` is
`Error("argument to 'len' not supported, found INTEGER")`. -/
theorem c8_builtin_errors :
    (∀ (fuel : Nat) (name : String) (args : List Object) (store : Store),
      apply_function (fuel + 1) (.builtin name) args store
        = (.ok (applyBuiltin name args), store))
    ∧ applyBuiltin "len" [.string "four"] = .integer 4
    ∧ applyBuiltin "len" [.integer 1]
        = .error ("argument to " ++ quoted "len" ++ " not supported, found INTEGER")
    ∧ (∀ args : List Object, args.length ≠ 1 →
        builtin_len args = .error ("wrong number of arguments: expected 1, found "
          ++ toString args.length))
    ∧ (∀ args : List Object, args.length ≠ 1 →
        builtin_first args = .error ("wrong number of arguments: expected 1, found "
          ++ toString args.length))
    ∧ (∀ args : List Object, args.length ≠ 1 →
        builtin_last args = .error ("wrong number of arguments: expected 1, found "
          ++ toString args.length))
    ∧ (∀ args : List Object, args.length ≠ 1 →
        builtin_rest args = .error ("wrong number of arguments: expected 1, found "
          ++ toString args.length))
    ∧ (∀ args : List Object, args.length ≠ 2 →
        builtin_push args = .error ("wrong number of arguments: expected 2, found "
          ++ toString args.length))
    ∧ (∀ o : Object, (∀ s, o ≠ .string s) → (∀ es, o ≠ .array es) →
        builtin_len [o] = .error ("argument to " ++ quoted "len"
          ++ " not supported, found " ++ o.get_type_str))
    ∧ (∀ o : Object, (∀ es, o ≠ .array es) →
        builtin_first [o] = .error ("argument to " ++ quoted "first"
          ++ " must be ARRAY, found " ++ o.get_type_str))
    ∧ (∀ o : Object, (∀ es, o ≠ .array es) →
        builtin_last [o] = .error ("argument to " ++ quoted "last"
          ++ " must be ARRAY, found " ++ o.get_type_str))
    ∧ (∀ o : Object, (∀ es, o ≠ .array es) →
        builtin_rest [o] = .error ("argument to " ++ quoted "rest"
          ++ " must be ARRAY, found " ++ o.get_type_str))
    ∧ (∀ a x : Object, (∀ es, a ≠ .array es) →
        builtin_push [a, x] = .error ("argument to " ++ quoted "push"
          ++ " must be ARRAY, found " ++ a.get_type_str))
    ∧ (∀ args : List Object, builtin_puts args = .null)
    ∧ (eval 9 (.expression (.call (.identifier "len") [.integer 1])) 0 store₀).1
        = .ok (.error ("argument to " ++ quoted "len"
          ++ " not supported, found INTEGER")) := by
  refine ⟨fun _ _ _ _ => rfl, rfl, rfl, ?_, ?_, ?_, ?_, ?_, ?_, ?_, ?_, ?_, ?_,
    fun _ => rfl, rfl⟩
  · intro args h
    rcases args with _ | ⟨a, _ | ⟨b, rest⟩⟩
    · rfl
    · simp at h
    · rfl
  · intro args h
    rcases args with _ | ⟨a, _ | ⟨b, rest⟩⟩
    · rfl
    · simp at h
    · rfl
  · intro args h
    rcases args with _ | ⟨a, _ | ⟨b, rest⟩⟩
    · rfl
    · simp at h
    · rfl
  · intro args h
    rcases args with _ | ⟨a, _ | ⟨b, rest⟩⟩
    · rfl
    · simp at h
    · rfl
  · intro args h
    rcases args with _ | ⟨a, _ | ⟨b, _ | ⟨c, rest⟩⟩⟩
    · rfl
    · rfl
    · simp at h
    · rfl
  · intro o h1 h2
    cases o
    case string s => exact absurd rfl (h1 s)
    case array es => exact absurd rfl (h2 es)
    all_goals rfl
  · intro o h2
    cases o
    case array es => exact absurd rfl (h2 es)
    all_goals rfl
  · intro o h2
    cases o
    case array es => exact absurd rfl (h2 es)
    all_goals rfl
  · intro o h2
    cases o
    case array es => exact absurd rfl (h2 es)
    all_goals rfl
  · intro a x h2
    cases a
    case array es => exact absurd rfl (h2 es)
    all_goals rfl

/-- **C8** witness: the arity rule of `len` at no arguments and the type
rule of `first` at an `Integer` argument. -/
theorem c8_witness :
    builtin_len [] = .error "wrong number of arguments: expected 1, found 0"
    ∧ builtin_first [.integer 3] = .error ("argument to " ++ quoted "first"
        ++ " must be ARRAY, found INTEGER") :=
  ⟨c8_builtin_errors.2.2.2.1 [] (by decide),
   c8_builtin_errors.2.2.2.2.2.2.2.2.2.1 (.integer 3) (fun _ h => nomatch h)⟩

/-! ## C10 — `let` writes only after the right-hand side succeeds -/

/-- **C10** (amended): the `let` arm itself writes the binding only after
the right-hand side evaluates successfully — on success it binds `name`
in the current frame and yields `Null`, and on any non-`ok` outcome it
returns that outcome with the store exactly as the sub-evaluation left
it, performing no write of its own. However, the sub-evaluation of the
right-hand side may itself have mutated the environment (`if` blocks run
their statements in the same frame), so the environment is not in
general left unchanged by a failing `let`. -/
theorem c10_let_write_discipline :
    ∀ (fuel : Nat) (name : String) (value : Expression) (envRef : Nat)
      (store : Store),
      (∀ (val : Object) (s' : Store),
        eval_expression fuel value envRef store = (.ok val, s') →
        eval_statement (fuel + 1) (.letS name value) envRef store
          = (.ok .null, storeSet s' envRef name val))
      ∧ (∀ (r : Res Object) (s' : Store),
        eval_expression fuel value envRef store = (r, s') →
        (∀ v, r ≠ .ok v) →
        eval_statement (fuel + 1) (.letS name value) envRef store = (r, s')) := by
  intro fuel name value envRef store
  constructor
  · intro val s' h
    simp only [eval_statement, h]
  · intro r s' h hr
    simp only [eval_statement, h]
    cases r
    case ok v => exact absurd rfl (hr v)
    all_goals rfl

/-- **C10** counterexample: running
`let x = if (true) { let x = 99; nosuch };` in the empty root environment
propagates the failure `identifier not found: nosuch`, yet the root
frame afterwards *does* contain the binding `x ↦ Integer 99` written by
the nested `let` inside the `if` block — so "the environment is left
completely unchanged" (and even "no binding for `name` is added") is
false. -/
theorem c10_counterexample :
    eval_statement 9 egLetIfMutates 0 store₀
      = (.err "identifier not found: nosuch", [⟨[("x", .integer 99)], none⟩])
    ∧ envGet [⟨[("x", .integer 99)], none⟩] 1 0 "x" = some (.integer 99)
    ∧ envGet store₀ 1 0 "x" = none :=
  ⟨rfl, rfl, rfl⟩

/-- **C10** witness: the amended theorem's failure clause at the concrete
statement `let x = nosuch;`. -/
theorem c10_witness :
    eval_statement (1 + 1) (.letS "x" (.identifier "nosuch")) 0 store₀
      = (.err "identifier not found: nosuch", store₀) :=
  (c10_let_write_discipline 1 "x" (.identifier "nosuch") 0 store₀).2
    (.err "identifier not found: nosuch") store₀ rfl (fun _ h => nomatch h)

/-! ## C1 — closures: capture at definition, apply in an environment
enclosed by the captured one -/

/-- The parameter-binding loop succeeds and binds positionally when
enough arguments are supplied. -/
theorem bindParameters_complete (ps : List String) (args : List Object) :
    ∀ (i : Nat) (acc : List (String × Object)), i + ps.length ≤ args.length →
    bindParameters ps args i acc
      = .ok (((ps.zip (args.drop i)).foldl
          (fun b pa => setBinding b pa.1 pa.2) acc)) := by
  induction ps with
  | nil => intro i acc h; simp [bindParameters]
  | cons p rest ih =>
      intro i acc h
      have hlt : i < args.length := by simp at h; omega
      have hget : args.get? i = some (args.get ⟨i, hlt⟩) := List.get?_eq_get hlt
      simp only [bindParameters, hget]
      rw [ih (i + 1) (setBinding acc p (args.get ⟨i, hlt⟩)) (by simp at h ⊢; omega)]
      congr 1
      rw [List.drop_eq_getElem_cons hlt]
      rfl

/-- **C1**: evaluating a function literal captures the *current*
environment reference without touching the store or the body;
`extend_function_env` builds the call frame with `outer` pointing at the
snapshot of the *function's captured* environment just appended to the
store (the caller's environment plays no role), with the parameters
bound positionally to the evaluated arguments; `apply_function` runs the
body in that frame and unwraps a `ReturnValue` result; and the spec's
closure example `let newAdder = fn(x) { fn(y) { x + y } };
let addTwo = newAdder(2); addTwo(3)` evaluates to `Integer 5`. -/
theorem c1_closure_semantics :
    (∀ (fuel : Nat) (ps : List String) (body : List Statement) (envRef : Nat)
        (store : Store),
      eval_expression (fuel + 1) (.fnLiteral ps body) envRef store
        = (.ok (.function ps body envRef), store))
    ∧ (∀ (ps : List String) (envRef : Nat) (args : List Object) (store : Store)
        (captured : Environment) (bs : List (String × Object)),
      store.get? envRef = some captured →
      bindParameters ps args 0 [] = .ok bs →
      extend_function_env ps envRef args store
        = (.ok ⟨bs, some store.length⟩, store ++ [captured]))
    ∧ (∀ (ps : List String) (args : List Object),
      ps.length ≤ args.length →
      bindParameters ps args 0 []
        = .ok ((ps.zip args).foldl (fun b pa => setBinding b pa.1 pa.2) []))
    ∧ (∀ (fuel : Nat) (ps : List String) (body : List Statement)
        (envRef : Nat) (args : List Object) (store : Store)
        (env : Environment) (s' : Store),
      extend_function_env ps envRef args store = (.ok env, s') →
      (∀ (v : Object) (s3 : Store),
        eval_block_statement fuel body s'.length (s' ++ [env])
          = (.ok (.returnValue v), s3) →
        apply_function (fuel + 1) (.function ps body envRef) args store
          = (.ok v, s3))
      ∧ (∀ (o : Object) (s3 : Store),
        eval_block_statement fuel body s'.length (s' ++ [env]) = (.ok o, s3) →
        (∀ v, o ≠ .returnValue v) →
        apply_function (fuel + 1) (.function ps body envRef) args store
          = (.ok o, s3)))
    ∧ (eval_program 30 egNewAdder 0 store₀).1 = .ok (.integer 5) := by
  refine ⟨fun _ _ _ _ _ => rfl, ?_, ?_, ?_, rfl⟩
  · intro ps envRef args store captured bs hcap hbind
    simp only [extend_function_env, hcap, hbind]
  · intro ps args h
    have := bindParameters_complete ps args 0 [] (by omega)
    rwa [List.drop_zero] at this
  · intro fuel ps body envRef args store env s' hext
    constructor
    · intro v s3 hblock
      simp only [apply_function, hext, hblock]
    · intro o s3 hblock ho
      simp only [apply_function, hext, hblock]

/-- **C1** witness: the call-frame construction at a concrete input — one
parameter `x`, one argument `2`, captured environment `0` in the root
store — yields the frame `{x ↦ 2}` enclosed by the snapshot of frame 0. -/
theorem c1_witness :
    extend_function_env ["x"] 0 [.integer 2] store₀
      = (.ok ⟨[("x", .integer 2)], some 1⟩, store₀ ++ [⟨[], none⟩]) :=
  c1_closure_semantics.2.1 ["x"] 0 [.integer 2] store₀ ⟨[], none⟩
    [("x", .integer 2)] rfl rfl

/-! ## C6 — hash literals: key eligibility, overwrite, key order -/

/-- Characters with equal codepoints are equal. -/
theorem charToNat_injective (a b : Char) (h : a.toNat = b.toNat) : a = b := by
  apply Char.ext
  apply UInt32.ext
  simpa [Char.toNat, UInt32.toNat] using h

/-- `charListLt` is a strict total order: on distinct lists it holds in
one direction or the other. -/
theorem charListLt_flip : ∀ (as bs : List Char),
    charListLt as bs = false → as ≠ bs → charListLt bs as = true := by
  intro as
  induction as with
  | nil =>
      intro bs h hne
      cases bs with
      | nil => exact absurd rfl hne
      | cons b bs' => simp [charListLt] at h
  | cons a as' ih =>
      intro bs h hne
      cases bs with
      | nil => simp [charListLt]
      | cons b bs' =>
          simp only [charListLt] at h ⊢
          by_cases h1 : a.toNat < b.toNat
          · simp [h1] at h
          · by_cases h2 : b.toNat < a.toNat
            · simp [h2]
            · have hab : a = b := charToNat_injective a b (by omega)
              subst hab
              simp only [if_neg h1, if_neg h2] at h ⊢
              refine ih bs' h ?_
              intro he
              exact hne (by rw [he])

/-- The derived-key order is a strict total order: if `lt a b` fails on
distinct keys then `lt b a` holds. -/
theorem hashKeyLt_flip : ∀ (a b : HashKey), HashKey.lt a b = false → a ≠ b →
    HashKey.lt b a = true := by
  intro a b h hne
  cases a <;> cases b
  case integer.integer x y =>
    simp only [HashKey.lt, decide_eq_false_iff_not] at h
    simp only [HashKey.lt, decide_eq_true_eq]
    have hxy : x ≠ y := fun he => hne (by rw [he])
    omega
  case boolean.boolean x y =>
    cases x <;> cases y <;> simp_all [HashKey.lt]
  case string.string x y =>
    simp only [HashKey.lt] at h ⊢
    refine charListLt_flip _ _ h ?_
    intro hd
    refine hne ?_
    have hxy : x = y := by cases x; cases y; simp_all
    rw [hxy]
  all_goals simp_all [HashKey.lt, HashKey.rank]

/-- After inserting `(k, key, v)`, looking up `k` finds `v` — later
duplicate keys overwrite earlier ones. -/
theorem hashLookup_insert : ∀ (l : List (HashKey × Object × Object))
    (k : HashKey) (key v : Object),
    hashLookup (hashInsert l k key v) k = some v := by
  intro l k key v
  induction l with
  | nil => simp [hashInsert, hashLookup]
  | cons hd tl ih =>
      obtain ⟨k', key', v'⟩ := hd
      simp only [hashInsert]
      by_cases h1 : HashKey.lt k k' = true
      · rw [if_pos h1]
        simp [hashLookup]
      · rw [if_neg h1]
        by_cases h2 : k = k'
        · rw [if_pos h2]
          simp [hashLookup]
        · rw [if_neg h2]
          simp only [hashLookup]
          rw [if_neg (fun (he : k' = k) => h2 he.symm)]
          exact ih

/-- The head of `hashInsert tl k key v` is either the inserted pair or
the old head. -/
theorem hashInsert_head : ∀ (tl : List (HashKey × Object × Object))
    (k : HashKey) (key v : Object) (b : HashKey × Object × Object),
    (hashInsert tl k key v).head? = some b →
    b = (k, key, v) ∨ tl.head? = some b := by
  intro tl k key v b h
  cases tl with
  | nil =>
      simp only [hashInsert, List.head?] at h
      exact Or.inl (Option.some.inj h).symm
  | cons hd tl' =>
      obtain ⟨k', key', v'⟩ := hd
      simp only [hashInsert] at h
      by_cases h1 : HashKey.lt k k' = true
      · rw [if_pos h1] at h
        exact Or.inl (Option.some.inj h).symm
      · rw [if_neg h1] at h
        by_cases h2 : k = k'
        · rw [if_pos h2] at h
          exact Or.inl (Option.some.inj h).symm
        · rw [if_neg h2] at h
          exact Or.inr h

/-- `hashInsert` preserves the `BTreeMap` key-order invariant. -/
theorem hashInsert_sorted : ∀ (l : List (HashKey × Object × Object))
    (k : HashKey) (key v : Object),
    HashSorted l → HashSorted (hashInsert l k key v) := by
  intro l k key v hs
  induction l with
  | nil => simp [hashInsert, HashSorted]
  | cons hd tl ih =>
      obtain ⟨k', key', v'⟩ := hd
      simp only [hashInsert]
      by_cases h1 : HashKey.lt k k' = true
      · rw [if_pos h1]
        exact List.chain'_cons.mpr ⟨h1, hs⟩
      · rw [if_neg h1]
        rcases List.chain'_cons'.mp hs with ⟨hhd, htl⟩
        by_cases h2 : k = k'
        · rw [if_pos h2]
          refine List.chain'_cons'.mpr ⟨?_, htl⟩
          intro b hb
          rw [h2]
          exact hhd b hb
        · rw [if_neg h2]
          refine List.chain'_cons'.mpr ⟨?_, ih htl⟩
          intro b hb
          rcases hashInsert_head tl k key v b hb with rfl | hmem
          · exact hashKeyLt_flip k k' (by simpa using h1) h2
          · exact hhd b hmem

/-- Every successfully evaluated hash literal (starting from a sorted
accumulator) produces a pair list sorted by the derived key's natural
order. -/
theorem eval_hash_literal_sorted :
    ∀ (pairs : List (Expression × Expression)) (fuel envRef : Nat)
      (acc : List (HashKey × Object × Object)) (store : Store)
      (l : List (HashKey × Object × Object)) (s : Store),
    HashSorted acc →
    eval_hash_literal fuel pairs envRef acc store = (.ok l, s) →
    HashSorted l := by
  intro pairs
  induction pairs with
  | nil =>
      intro fuel envRef acc store l s hs heq
      cases fuel with
      | zero => simp [eval_hash_literal] at heq
      | succ f =>
          simp only [eval_hash_literal] at heq
          have h1 : Res.ok acc = Res.ok l := congrArg Prod.fst heq
          have h2 : acc = l := by injection h1
          subst h2
          exact hs
  | cons p rest ih =>
      intro fuel envRef acc store l s hs heq
      obtain ⟨kE, vE⟩ := p
      cases fuel with
      | zero => simp [eval_hash_literal] at heq
      | succ f =>
          simp only [eval_hash_literal] at heq
          rcases hk : eval_expression f kE envRef store with ⟨rk, s1⟩
          simp only [hk] at heq
          cases rk with
          | ok key =>
              cases hgk : key.get_hash_key with
              | some hkk =>
                  simp only [hgk] at heq
                  rcases hv : eval_expression f vE envRef s1 with ⟨rv, s2⟩
                  simp only [hv] at heq
                  cases rv with
                  | ok value =>
                      exact ih f envRef _ s2 l s
                        (hashInsert_sorted _ _ _ _ hs) heq
                  | err e => simp at heq
                  | panic m => simp at heq
                  | timeout => simp at heq
              | none => simp only [hgk] at heq; simp at heq
          | err e => simp at heq
          | panic m => simp at heq
          | timeout => simp at heq

/-- **C6**: hash-literal key/value pairs are evaluated left to right; a
key evaluating to a non-`HashKey`-eligible value fails the whole literal
with a propagated `unusable as hash key: <TYPE>` failure; eligible pairs
go through the ordered map's insert, so a later duplicate key overwrites
the earlier entry; and the resulting pair list is ordered by the derived
key's natural order, not insertion order (`{2:"b", 1:"a"}` iterates as
`1, 2`). Also the quoted spec examples: `{"a": 1}["a"]` is `Integer 1`
and `{"a": 1}[fn(){}]` is the propagated failure
`unusable as hash key: FUNCTION`. -/
theorem c6_hash_literal :
    (∀ (fuel : Nat) (kE vE : Expression)
        (rest : List (Expression × Expression)) (envRef : Nat)
        (acc : List (HashKey × Object × Object)) (store : Store)
        (key : Object) (s1 : Store),
      eval_expression fuel kE envRef store = (.ok key, s1) →
      key.get_hash_key = none →
      eval_hash_literal (fuel + 1) ((kE, vE) :: rest) envRef acc store
        = (.err ("unusable as hash key: " ++ key.get_type_str), s1))
    ∧ (∀ (fuel : Nat) (kE vE : Expression)
        (rest : List (Expression × Expression)) (envRef : Nat)
        (acc : List (HashKey × Object × Object)) (store : Store)
        (key : Object) (hk : HashKey) (value : Object) (s1 s2 : Store),
      eval_expression fuel kE envRef store = (.ok key, s1) →
      key.get_hash_key = some hk →
      eval_expression fuel vE envRef s1 = (.ok value, s2) →
      eval_hash_literal (fuel + 1) ((kE, vE) :: rest) envRef acc store
        = eval_hash_literal fuel rest envRef (hashInsert acc hk key value) s2)
    ∧ (∀ (l : List (HashKey × Object × Object)) (k : HashKey)
        (key v : Object), hashLookup (hashInsert l k key v) k = some v)
    ∧ (∀ (fuel envRef : Nat) (pairs : List (Expression × Expression))
        (store : Store) (l : List (HashKey × Object × Object)) (s : Store),
      eval_hash_literal fuel pairs envRef [] store = (.ok l, s) →
      HashSorted l)
    ∧ (eval_expression 9 (.hashLiteral
        [(.integer 2, .string "b"), (.integer 1, .string "a")]) 0 store₀).1
      = .ok (.hash [(.integer 1, .integer 1, .string "a"),
                    (.integer 2, .integer 2, .string "b")])
    ∧ (eval_expression 9 (.hashLiteral
        [(.integer 1, .string "a"), (.integer 1, .string "b")]) 0 store₀).1
      = .ok (.hash [(.integer 1, .integer 1, .string "b")])
    ∧ (eval_expression 9 (.hashLiteral [(.fnLiteral [] [], .integer 1)])
        0 store₀).1 = .err "unusable as hash key: FUNCTION"
    ∧ (eval_expression 9 (.indexE (.hashLiteral [(.string "a", .integer 1)])
        (.string "a")) 0 store₀).1 = .ok (.integer 1)
    ∧ (eval_expression 9 (.indexE (.hashLiteral [(.string "a", .integer 1)])
        (.fnLiteral [] [])) 0 store₀).1
      = .err "unusable as hash key: FUNCTION" := by
  refine ⟨?_, ?_, hashLookup_insert, ?_, rfl, rfl, rfl, rfl, rfl⟩
  · intro fuel kE vE rest envRef acc store key s1 hk hgk
    simp only [eval_hash_literal, hk, hgk]
  · intro fuel kE vE rest envRef acc store key hkk value s1 s2 hk hgk hv
    simp only [eval_hash_literal, hk, hgk, hv]
  · intro fuel envRef pairs store l s heq
    exact eval_hash_literal_sorted pairs fuel envRef [] store l s
      (by simp) heq

/-- **C6** witness: the ineligible-key rule at the concrete literal
`{fn(){}: 1}` in the root environment, plus the sortedness clause on the
evaluated literal `{2:"b", 1:"a"}`. -/
theorem c6_witness :
    eval_hash_literal (1 + 1) [(.fnLiteral [] [], .integer 1)] 0 [] store₀
      = (.err "unusable as hash key: FUNCTION", store₀)
    ∧ HashSorted [((.integer 1 : HashKey), (.integer 1 : Object),
        (.string "a" : Object)),
        ((.integer 2 : HashKey), (.integer 2 : Object), (.string "b" : Object))] :=
  ⟨c6_hash_literal.1 1 (.fnLiteral [] []) (.integer 1) [] 0 [] store₀
      (.function [] [] 0) store₀ rfl rfl,
   c6_hash_literal.2.2.2.1 9 0
      [(.integer 2, .string "b"), (.integer 1, .string "a")] store₀
      [((.integer 1 : HashKey), (.integer 1 : Object), (.string "a" : Object)),
       ((.integer 2 : HashKey), (.integer 2 : Object), (.string "b" : Object))]
      store₀ rfl⟩

end MonkeyEval
